import Mathlib

/-!
Shallow embedding of the slimechain-algo-rs formula engine.

`f64` values are modelled as real numbers (`ℝ`): the source defends every
branch with clamping, and no claim concerns floating-point rounding. Rust
`powf` on a non-negative base is `Real.rpow`, `ln_1p x` is
`Real.log (1 + x)`, `exp` is `Real.exp`. The `u64`/`u32` integral inputs
are `ℕ`; the `ttl.round() as u32` conversion rounds half away from zero
and then saturates into the `u32` range, which for the real-valued inputs
appearing here coincides with `min (Int.toNat (round x)) (2 ^ 32 - 1)`.
-/

noncomputable section

open Real

-- ------------------------------------------------------------------
-- Data model (src/src/lib.rs)
-- ------------------------------------------------------------------

structure QWeights where
  w_a : ℝ
  w_r : ℝ
  w_t : ℝ
  w_d : ℝ
  w_h : ℝ
  w_s : ℝ

def QWeights.default : QWeights :=
  { w_a := 0.2, w_r := 0.2, w_t := 0.2, w_d := 0.15, w_h := 0.2, w_s := 0.25 }

structure EfParams where
  gamma : ℝ
  cap : ℝ

structure CostParams where
  alpha : ℝ
  beta : ℝ
  a : ℝ
  b : ℝ
  lambda_actor : ℝ
  lambda_content : ℝ
  rate_limit_per_hour : ℝ

structure PropagationParams where
  ttl_base : ℝ
  fanout_base : ℝ
  k1 : ℝ
  k2 : ℝ

structure RewardParams where
  r0 : ℝ
  mu : ℝ

structure CongestionParams where
  eta : ℝ
  target_load : ℝ
  base_min : ℝ
  base_max : ℝ

structure Params where
  q_weights : QWeights
  q_min : ℝ
  ef : EfParams
  cost : CostParams
  propagation : PropagationParams
  reward : RewardParams
  congestion : CongestionParams

def Params.default : Params :=
  { q_weights := QWeights.default
    q_min := 0.5
    ef := { gamma := 0.8, cap := 10.0 }
    cost :=
      { alpha := 0.7, beta := 0.5, a := 1.2, b := 0.6
        lambda_actor := 0.6, lambda_content := 0.4
        rate_limit_per_hour := 10.0 }
    propagation := { ttl_base := 4.0, fanout_base := 5.0, k1 := 2.0, k2 := 2.0 }
    reward := { r0 := 1.0, mu := 0.3 }
    congestion := { eta := 0.1, target_load := 500.0, base_min := 0.1, base_max := 100.0 } }

structure QInputs where
  A : ℝ
  R : ℝ
  T : ℝ
  D : ℝ
  H : ℝ
  S : ℝ

structure Actor where
  rl : ℝ
  q : ℝ
  ef : ℝ
  posts_1h : Option ℝ

structure RiskSignals where
  coordination : Option ℝ
  clustering : Option ℝ
  burst : Option ℝ
  monotonicity : Option ℝ
  abuse_history : Option ℝ

def RiskSignals.default : RiskSignals :=
  { coordination := none, clustering := none, burst := none,
    monotonicity := none, abuse_history := none }

structure Content where
  is_claim : Option Bool
  has_evidence : Option Bool
  risk_signals : Option RiskSignals

structure RiskWeights where
  w_coord : ℝ
  w_clust : ℝ
  w_burst : ℝ
  w_mono : ℝ
  w_hist : ℝ

def RiskWeights.default : RiskWeights :=
  { w_coord := 0.25, w_clust := 0.25, w_burst := 0.20, w_mono := 0.15, w_hist := 0.15 }

structure PropagationResult where
  ttl : ℕ
  fanout : ℕ

structure RewardInput where
  ticket_budget : ℝ
  client_q : ℝ
  size_bytes : ℕ
  ttfb_ms : ℕ
  server_cluster_risk : ℝ

-- ------------------------------------------------------------------
-- Utilities
-- ------------------------------------------------------------------

def clamp (x lo hi : ℝ) : ℝ := min (max x lo) hi

def v (opt : Option ℝ) : ℝ := opt.getD 0

/-- Rust `x.round() as u32`: round half away from zero, then saturate into
the `u32` range. For every real `x` this agrees with rounding half up and
clamping into `[0, 2^32-1]`. -/
def u32ofReal (x : ℝ) : ℕ := min (Int.toNat (round x)) (2 ^ 32 - 1)

-- ------------------------------------------------------------------
-- Quality / EF
-- ------------------------------------------------------------------

def calculate_quality (inp : QInputs) (params : Params) : ℝ :=
  let w := params.q_weights
  let q := w.w_a * inp.A + w.w_r * inp.R + w.w_t * inp.T + w.w_d * inp.D
             + w.w_h * inp.H - w.w_s * inp.S
  let q2 := clamp q 0 1
  if inp.H = 0 then min q2 0.4 else q2

def calculate_ef (followers_q : List ℝ) (params : Params) : ℝ :=
  let gamma := params.ef.gamma
  let cap := params.ef.cap
  let sum := (followers_q.map (fun q => if params.q_min ≤ q then q ^ gamma else 0)).sum
  Real.log (1 + sum) * cap

-- ------------------------------------------------------------------
-- Risk
-- ------------------------------------------------------------------

def calculate_risk (signals : Option RiskSignals) (weights : RiskWeights) : ℝ :=
  let s := signals.getD RiskSignals.default
  let r := weights.w_coord * v s.coordination
         + weights.w_clust * v s.clustering
         + weights.w_burst * v s.burst
         + weights.w_mono * v s.monotonicity
         + weights.w_hist * v s.abuse_history
  clamp r 0 1

-- ------------------------------------------------------------------
-- Posting cost (DPP)
-- ------------------------------------------------------------------

def calculate_post_cost (actor : Actor) (content : Content) (params : Params)
    (base_fare : ℝ) : ℝ :=
  let a := params.cost.a
  let b := params.cost.b
  let alpha := params.cost.alpha
  let beta := params.cost.beta
  let lambda_a := params.cost.lambda_actor
  let lambda_c := params.cost.lambda_content
  let rl_cost := a * (max actor.rl 0) ^ alpha
  let ef_cost := b * (max actor.ef 0) ^ beta
  let cost0 := base_fare + rl_cost + ef_cost
  let weights := RiskWeights.default
  let risk_actor := calculate_risk content.risk_signals weights
  let risk_content := calculate_risk content.risk_signals weights
  let cost1 := cost0 * (1 + lambda_a * risk_actor + lambda_c * risk_content)
  let cost2 :=
    if content.is_claim.getD false then
      if content.has_evidence.getD false then cost1 * 0.7 else cost1 * 1.2
    else cost1
  match actor.posts_1h with
  | some posts =>
      let rate := max params.cost.rate_limit_per_hour 1
      if rate < posts then cost2 * (1 + 0.5 * (posts / rate - 1)) else cost2
  | none => cost2

-- ------------------------------------------------------------------
-- Propagation control (RWP/TFR)
-- ------------------------------------------------------------------

def adjust_propagation (risk_signals : Option RiskSignals) (params : Params) :
    PropagationResult :=
  let weights := RiskWeights.default
  let risk := calculate_risk risk_signals weights
  let ttl := clamp (params.propagation.ttl_base - params.propagation.k1 * risk) 1
    params.propagation.ttl_base
  let fanout := clamp (params.propagation.fanout_base - params.propagation.k2 * risk) 1
    params.propagation.fanout_base
  { ttl := u32ofReal ttl, fanout := u32ofReal fanout }

-- ------------------------------------------------------------------
-- PoR/S reward
-- ------------------------------------------------------------------

def calculate_serve_reward (input : RewardInput) (params : Params) : ℝ :=
  let r0 := params.reward.r0
  let mu := params.reward.mu
  let w_size := Real.log (1 + (input.size_bytes : ℝ)) / Real.log (1 + 1000000)
  let w_latency := 1 / (1 + (input.ttfb_ms : ℝ) / 1000)
  let diversity := 1 - mu * clamp input.server_cluster_risk 0 1
  let reward := r0 * clamp input.client_q 0 1 * w_size * w_latency * diversity
  min reward (max input.ticket_budget 0)

-- ------------------------------------------------------------------
-- Congestion control base fare
-- ------------------------------------------------------------------

def update_base_cost (current_base current_load : ℝ) (params : Params) : ℝ :=
  let eta := params.congestion.eta
  let target := max params.congestion.target_load 1e-9
  let b := current_base * Real.exp (eta * (current_load / target - 1))
  clamp b params.congestion.base_min params.congestion.base_max

-- ------------------------------------------------------------------
-- Tier / discount overlay (src/samples/musk_mode.rs)
-- ------------------------------------------------------------------

inductive Tier where
  | T0
  | T1
  | T2
  | T3

structure TierPolicy where
  discounts : ℝ × ℝ × ℝ × ℝ
  risk_factor : ℝ × ℝ × ℝ × ℝ
  dm_escrow_usd : ℝ
  cmin_usd : ℝ

/-- The `PriceOracle` trait: the one required operation, `usd_per_social`,
may report the price unavailable. -/
structure PriceOracle where
  usd_per_social : Option ℝ

def tier_discount (tier : Tier) (policy : TierPolicy) : ℝ :=
  match tier with
  | Tier.T0 => policy.discounts.1
  | Tier.T1 => policy.discounts.2.1
  | Tier.T2 => policy.discounts.2.2.1
  | Tier.T3 => policy.discounts.2.2.2

def usd_to_social (usd : ℝ) (oracle : PriceOracle) (fallback_usd_per_social : ℝ) : ℝ :=
  let px := max (oracle.usd_per_social.getD fallback_usd_per_social) 1e-9
  usd / px

def compute_final_cost_with_tier (actor : Actor) (content : Content) (params : Params)
    (basefare : ℝ) (tier : Tier) (policy : TierPolicy) (oracle : PriceOracle)
    (fallback_usd_per_social : ℝ) : ℝ :=
  let cost := calculate_post_cost actor content params basefare
  let cmin_social := usd_to_social policy.cmin_usd oracle fallback_usd_per_social
  let cost2 := if cost < cmin_social then cmin_social else cost
  cost2 * tier_discount tier policy

def dm_escrow_social (policy : TierPolicy) (oracle : PriceOracle)
    (fallback_usd_per_social : ℝ) : ℝ :=
  usd_to_social policy.dm_escrow_usd oracle fallback_usd_per_social

-- ------------------------------------------------------------------
-- Spec-side stage decomposition of the posting cost (§4.3 of the spec)
-- ------------------------------------------------------------------

/-- Stage 1 of the spec formula: `base_fare + a·max(rl,0)^alpha + b·max(ef,0)^beta`. -/
def stageOneCost (actor : Actor) (params : Params) (base_fare : ℝ) : ℝ :=
  base_fare + params.cost.a * (max actor.rl 0) ^ params.cost.alpha
            + params.cost.b * (max actor.ef 0) ^ params.cost.beta

/-- Stage 2 factor of the spec formula: both risks from `content.risk_signals`
under the default weights. -/
def riskFactor (content : Content) (params : Params) : ℝ :=
  1 + params.cost.lambda_actor * calculate_risk content.risk_signals RiskWeights.default
    + params.cost.lambda_content * calculate_risk content.risk_signals RiskWeights.default

/-- Stage 3 factor of the spec formula: claim/evidence adjustment. -/
def claimFactor (content : Content) : ℝ :=
  if content.is_claim.getD false then
    if content.has_evidence.getD false then 0.7 else 1.2
  else 1

/-- Stage 4 factor: the rate-limit surcharge as the source applies it
(the configured hourly limit floored at 1). -/
def rateFactor (actor : Actor) (params : Params) : ℝ :=
  match actor.posts_1h with
  | some posts =>
      let rate := max params.cost.rate_limit_per_hour 1
      if rate < posts then 1 + 0.5 * (posts / rate - 1) else 1
  | none => 1

/-- The per-follower summand of `calculate_ef`: quality below `q_min` is
excluded, qualifying quality is raised to the `gamma` exponent. -/
def efTerm (params : Params) (q : ℝ) : ℝ :=
  if params.q_min ≤ q then q ^ params.ef.gamma else 0

-- ------------------------------------------------------------------
-- Concrete instances used in counterexamples and witnesses
-- ------------------------------------------------------------------

def c4Params : Params :=
  { Params.default with cost := { Params.default.cost with rate_limit_per_hour := 0.5 } }

def c4Actor : Actor := { rl := 0, q := 0, ef := 0, posts_1h := some 0.8 }

def c4Content : Content := { is_claim := none, has_evidence := none, risk_signals := none }

def c4wActor : Actor := { rl := 0, q := 0, ef := 0, posts_1h := some 12 }

def c2Params : Params := { Params.default with reward := { r0 := 1, mu := 2 } }

def c2Input : RewardInput :=
  { ticket_budget := 10, client_q := 1, size_bytes := 1000000, ttfb_ms := 0,
    server_cluster_risk := 1 }

def c3pEta0 : Params :=
  { Params.default with
    congestion := { eta := 0, target_load := 500, base_min := 0.1, base_max := 100 } }

def c3pNegT : Params :=
  { Params.default with
    congestion := { eta := 0.1, target_load := -5, base_min := 0.1, base_max := 100 } }

def c5p1 : Params :=
  { Params.default with
    propagation := { ttl_base := 0.2, fanout_base := 5, k1 := 2, k2 := 2 } }

def c5p2 : Params :=
  { Params.default with
    propagation := { ttl_base := 4.6, fanout_base := 5, k1 := 0, k2 := 2 } }

def c7Policy : TierPolicy :=
  { discounts := (1, 1, 1, 2), risk_factor := (1, 1, 1, 1),
    dm_escrow_usd := 0, cmin_usd := 0 }

def c7wPolicy : TierPolicy :=
  { discounts := (1, 0.95, 0.85, 0.7), risk_factor := (1, 0.95, 0.9, 0.8),
    dm_escrow_usd := 0.003, cmin_usd := 0.005 }

def c7Oracle : PriceOracle := { usd_per_social := some 1 }

def c7Actor : Actor := { rl := 0, q := 0, ef := 0, posts_1h := none }

def c7Content : Content := { is_claim := none, has_evidence := none, risk_signals := none }

-- ------------------------------------------------------------------
-- Helper lemmas
-- ------------------------------------------------------------------

lemma clamp_le_hi (x lo hi : ℝ) : clamp x lo hi ≤ hi := min_le_right _ _

lemma lo_le_clamp (x : ℝ) {lo hi : ℝ} (h : lo ≤ hi) : lo ≤ clamp x lo hi :=
  le_min (le_trans (le_max_right x lo) (le_refl _)) h

lemma clamp_nonneg (x hi : ℝ) (h : 0 ≤ hi) : 0 ≤ clamp x 0 hi :=
  lo_le_clamp x h

lemma clamp_mono_left {x y : ℝ} (lo hi : ℝ) (h : x ≤ y) :
    clamp x lo hi ≤ clamp y lo hi :=
  min_le_min (max_le_max h (le_refl lo)) (le_refl hi)

lemma calculate_risk_nonneg (s : Option RiskSignals) (w : RiskWeights) :
    0 ≤ calculate_risk s w :=
  clamp_nonneg _ _ zero_le_one

lemma calculate_risk_le_one (s : Option RiskSignals) (w : RiskWeights) :
    calculate_risk s w ≤ 1 :=
  clamp_le_hi _ _ _

/-- The posting cost is exactly the stage-1 sum times the three stage factors. -/
lemma post_cost_factorization (actor : Actor) (content : Content) (params : Params)
    (base_fare : ℝ) :
    calculate_post_cost actor content params base_fare =
      stageOneCost actor params base_fare * riskFactor content params
        * claimFactor content * rateFactor actor params := by
  unfold calculate_post_cost stageOneCost riskFactor claimFactor rateFactor
  cases actor.posts_1h with
  | none =>
      cases content.is_claim.getD false <;>
        cases content.has_evidence.getD false <;>
          simp only [Bool.false_eq_true, if_true, if_false] <;> ring
  | some posts =>
      cases content.is_claim.getD false <;>
        cases content.has_evidence.getD false <;>
          simp only [Bool.false_eq_true, if_true, if_false] <;>
            split_ifs <;> ring

/-- Rate factor of an actor whose `posts_1h` field is dropped is 1. -/
lemma rateFactor_erase_posts (actor : Actor) (params : Params) :
    rateFactor { actor with posts_1h := none } params = 1 := rfl

lemma stageOneCost_erase_posts (actor : Actor) (params : Params) (base_fare : ℝ) :
    stageOneCost { actor with posts_1h := none } params base_fare =
      stageOneCost actor params base_fare := rfl

-- ------------------------------------------------------------------
-- Claim theorems
-- ------------------------------------------------------------------

/-- C1: for every actor, content, parameter bundle and base fare,
`calculate_post_cost` equals the four-stage formula in the fixed order:
the stage-1 sum `base_fare + a·max(rl,0)^alpha + b·max(ef,0)^beta`
multiplied by the risk factor (both risks from `content.risk_signals`
under the default weights), the claim/evidence factor and the rate-limit
surcharge factor; the combined effect of stages 2–4 is the product of the
individual factors applied to the stage-1 sum. -/
theorem post_cost_four_stage_decomposition (actor : Actor) (content : Content)
    (params : Params) (base_fare : ℝ) :
    calculate_post_cost actor content params base_fare =
      stageOneCost actor params base_fare * riskFactor content params
        * claimFactor content * rateFactor actor params :=
  post_cost_factorization actor content params base_fare

/-- C9: the two risk values inside `calculate_post_cost` are computed from the
same `content.risk_signals`, so the risk-multiplier stage equals multiplying
the running cost by `1 + (lambda_actor + lambda_content) · r` for the single
risk score `r` of the content signals under default weights. -/
theorem post_cost_single_risk_form (actor : Actor) (content : Content)
    (params : Params) (base_fare : ℝ) :
    calculate_post_cost actor content params base_fare =
      stageOneCost actor params base_fare
        * (1 + (params.cost.lambda_actor + params.cost.lambda_content)
            * calculate_risk content.risk_signals RiskWeights.default)
        * claimFactor content * rateFactor actor params := by
  rw [post_cost_factorization]
  unfold riskFactor
  ring

/-- C4 (amended): the rate-limit surcharge uses the configured hourly limit
floored at 1: with `rate = max(rate_limit_per_hour, 1)`, the factor
`1 + 0.5·(posts/rate − 1)` applies exactly when `posts > rate`, and no
surcharge applies when `posts ≤ rate` — in particular a configured limit
below 1 behaves as a limit of 1. -/
theorem post_cost_rate_surcharge_floored (actor : Actor) (content : Content)
    (params : Params) (base_fare posts : ℝ) (h : actor.posts_1h = some posts) :
    calculate_post_cost actor content params base_fare =
      (if max params.cost.rate_limit_per_hour 1 < posts
        then 1 + 0.5 * (posts / max params.cost.rate_limit_per_hour 1 - 1) else 1)
        * calculate_post_cost { actor with posts_1h := none } content params base_fare := by
  rw [post_cost_factorization, post_cost_factorization, rateFactor_erase_posts,
    stageOneCost_erase_posts]
  unfold rateFactor
  rw [h]
  dsimp only
  split_ifs with hcond <;> ring

/-- C4 counterexample: with a configured limit of 0.5 posts/hour and 0.8 posts
in the last hour — posts exceed the configured limit — the code applies no
surcharge (the cost stays 1), while the claim asserts the surcharged value
`1 + 0.5·(0.8/0.5 − 1) = 1.3`. -/
theorem post_cost_low_limit_counterexample :
    calculate_post_cost c4Actor c4Content c4Params 1 = 1 ∧
    (0.5 : ℝ) < 0.8 ∧ (1 : ℝ) ≠ 1 + 0.5 * (0.8 / 0.5 - 1) := by
  refine ⟨?_, by norm_num, by norm_num⟩
  rw [post_cost_factorization]
  unfold stageOneCost riskFactor claimFactor rateFactor c4Actor c4Content c4Params
    calculate_risk
  norm_num [clamp, v, RiskSignals.default, RiskWeights.default, Params.default,
    Real.zero_rpow]

/-- Witness for the amended C4 theorem at a concrete actor. -/
theorem post_cost_rate_surcharge_floored_witness :
    c4wActor.posts_1h = some 12 ∧
    calculate_post_cost c4wActor c4Content Params.default 1 =
      (if max Params.default.cost.rate_limit_per_hour 1 < 12
        then 1 + 0.5 * (12 / max Params.default.cost.rate_limit_per_hour 1 - 1) else 1)
        * calculate_post_cost { c4wActor with posts_1h := none } c4Content Params.default 1 :=
  ⟨rfl, post_cost_rate_surcharge_floored c4wActor c4Content Params.default 1 12 rfl⟩

/-- C6: with the default quality weights the quality score lies in `[0,1]`,
and when the human-verification dimension is exactly zero the score is at
most 0.4 regardless of the weighted sum. -/
theorem calculate_quality_bounds (inp : QInputs) (params : Params)
    (h : params.q_weights = QWeights.default) :
    (0 ≤ calculate_quality inp params ∧ calculate_quality inp params ≤ 1) ∧
    (inp.H = 0 → calculate_quality inp params ≤ 0.4) := by
  unfold calculate_quality
  dsimp only
  split_ifs with hH
  · refine ⟨⟨le_min (clamp_nonneg _ _ zero_le_one) (by norm_num), ?_⟩, fun _ => min_le_right _ _⟩
    exact le_trans (min_le_left _ _) (clamp_le_hi _ _ _)
  · exact ⟨⟨clamp_nonneg _ _ zero_le_one, clamp_le_hi _ _ _⟩, fun hH2 => absurd hH2 hH⟩

/-- Witness for C6 at a concrete input and the default parameters. -/
theorem calculate_quality_bounds_witness :
    Params.default.q_weights = QWeights.default ∧
    ((0 ≤ calculate_quality ⟨0.8, 0.7, 0.6, 0.5, 1.0, 0.2⟩ Params.default ∧
      calculate_quality ⟨0.8, 0.7, 0.6, 0.5, 1.0, 0.2⟩ Params.default ≤ 1) ∧
     ((0.8 : ℝ) = 0 → False) ∧
     ((⟨0.8, 0.7, 0.6, 0.5, 1.0, 0.2⟩ : QInputs).H = 0 →
       calculate_quality ⟨0.8, 0.7, 0.6, 0.5, 1.0, 0.2⟩ Params.default ≤ 0.4)) :=
  ⟨rfl,
    ⟨(calculate_quality_bounds ⟨0.8, 0.7, 0.6, 0.5, 1.0, 0.2⟩ Params.default rfl).1,
     fun hc => by norm_num at hc,
     (calculate_quality_bounds ⟨0.8, 0.7, 0.6, 0.5, 1.0, 0.2⟩ Params.default rfl).2⟩⟩

/-- C2 counterexample: with the non-negative coefficients `r0 = 1` and
`mu = 2`, a full-risk serve of a 1 MB payload yields reward −1, outside
`[0, max(ticket_budget, 0)]`. -/
theorem serve_reward_negative_counterexample :
    0 ≤ c2Params.reward.r0 ∧ 0 ≤ c2Params.reward.mu ∧
    calculate_serve_reward c2Input c2Params = -1 ∧ ((-1 : ℝ) < 0) := by
  have hlog : Real.log (1 + 1000000) ≠ 0 :=
    ne_of_gt (Real.log_pos (by norm_num))
  refine ⟨by norm_num [c2Params, Params.default], by norm_num [c2Params, Params.default],
    ?_, by norm_num⟩
  unfold calculate_serve_reward c2Input c2Params
  norm_num [clamp, Params.default, div_self hlog]

/-- C2 (amended): the serve reward lies in `[0, max(ticket_budget, 0)]`
whenever `r0 ≥ 0` and the diversity-penalty coefficient `mu` is at most 1
(for `mu > 1` a fully clustered server can be driven to a negative reward). -/
theorem serve_reward_bounds (input : RewardInput) (params : Params)
    (hr0 : 0 ≤ params.reward.r0) (hmu : params.reward.mu ≤ 1) :
    0 ≤ calculate_serve_reward input params ∧
    calculate_serve_reward input params ≤ max input.ticket_budget 0 := by
  unfold calculate_serve_reward
  dsimp only
  refine ⟨le_min ?_ (le_max_right _ _), min_le_right _ _⟩
  have hq : 0 ≤ clamp input.client_q 0 1 := clamp_nonneg _ _ zero_le_one
  have hsize : 0 ≤ Real.log (1 + (input.size_bytes : ℝ)) / Real.log (1 + 1000000) := by
    apply div_nonneg
    · exact Real.log_nonneg (le_add_of_nonneg_right (Nat.cast_nonneg _))
    · exact le_of_lt (Real.log_pos (by norm_num))
  have hlat : 0 ≤ 1 / (1 + (input.ttfb_ms : ℝ) / 1000) := by positivity
  have hdiv : 0 ≤ 1 - params.reward.mu * clamp input.server_cluster_risk 0 1 := by
    have hc0 : 0 ≤ clamp input.server_cluster_risk 0 1 := clamp_nonneg _ _ zero_le_one
    have hc1 : clamp input.server_cluster_risk 0 1 ≤ 1 := clamp_le_hi _ _ _
    rcases le_or_lt params.reward.mu 0 with hm | hm
    · nlinarith
    · nlinarith
  exact mul_nonneg (mul_nonneg (mul_nonneg (mul_nonneg hr0 hq) hsize) hlat) hdiv

/-- Witness for the amended C2 theorem at the default parameters. -/
theorem serve_reward_bounds_witness :
    0 ≤ Params.default.reward.r0 ∧ Params.default.reward.mu ≤ 1 ∧
    (0 ≤ calculate_serve_reward ⟨1, 1, 0, 0, 0⟩ Params.default ∧
     calculate_serve_reward ⟨1, 1, 0, 0, 0⟩ Params.default ≤
       max (⟨1, 1, 0, 0, 0⟩ : RewardInput).ticket_budget 0) :=
  ⟨by norm_num [Params.default], by norm_num [Params.default],
   serve_reward_bounds ⟨1, 1, 0, 0, 0⟩ Params.default (by norm_num [Params.default])
     (by norm_num [Params.default])⟩

/-- C3 counterexample: the strict-increase part fails as stated.
At the default parameters with `current_base = base_max = 100` and load 1000
(above the target 500) the result is clamped to 100, not strictly larger;
with `eta = 0` the result never moves; with a negative `target_load = −5`
and load −1 (above the target) the 1e-9 divisor floor makes the result
drop instead of rise. -/
theorem update_base_cost_strict_counterexample :
    ¬ (100 < update_base_cost 100 1000 Params.default) ∧
    ¬ (1 < update_base_cost 1 1000 c3pEta0) ∧
    (((-5 : ℝ) < -1) ∧ ¬ (1 < update_base_cost 1 (-1) c3pNegT)) := by
  refine ⟨?_, ?_, by norm_num, ?_⟩
  · exact not_lt.mpr (le_trans (clamp_le_hi _ _ _) (by norm_num [Params.default]))
  · apply not_lt.mpr
    apply le_of_eq
    unfold update_base_cost clamp c3pEta0
    norm_num [Real.exp_zero, max_def, min_def]
  · apply not_lt.mpr
    apply le_of_lt
    have hE : Real.exp (c3pNegT.congestion.eta *
        ((-1) / max c3pNegT.congestion.target_load 1e-9 - 1)) < 1 := by
      apply Real.exp_lt_one_iff.mpr
      norm_num [c3pNegT, Params.default, max_def]
    unfold update_base_cost clamp
    refine lt_of_le_of_lt (min_le_left _ _) (max_lt ?_ (by norm_num [c3pNegT]))
    calc 1 * Real.exp _ < 1 := by rw [one_mul]; exact hE
    _ ≤ 1 := le_refl 1

/-- C3 (amended): the updated base fare lies in `[base_min, base_max]`
whenever that interval is non-empty; it is strictly above `current_base`
when the load exceeds `target_load`, provided `eta > 0`,
`target_load ≥ 1e-9` (so the divisor floor is inactive) and
`0 < current_base < base_max`; symmetrically it is strictly below
`current_base` when the load is under target, provided
`base_min < current_base`. -/
theorem update_base_cost_bounds_and_strict (cb cl : ℝ) (p : Params) :
    (p.congestion.base_min ≤ p.congestion.base_max →
      p.congestion.base_min ≤ update_base_cost cb cl p ∧
      update_base_cost cb cl p ≤ p.congestion.base_max)
  ∧ (0 < p.congestion.eta → 1e-9 ≤ p.congestion.target_load →
      0 < cb → cb < p.congestion.base_max → p.congestion.target_load < cl →
      cb < update_base_cost cb cl p)
  ∧ (0 < p.congestion.eta → 1e-9 ≤ p.congestion.target_load →
      0 < cb → p.congestion.base_min < cb → cl < p.congestion.target_load →
      update_base_cost cb cl p < cb) := by
  unfold update_base_cost
  refine ⟨fun h => ⟨lo_le_clamp _ h, clamp_le_hi _ _ _⟩, ?_, ?_⟩
  · intro heta htl hcb hcbmax hload
    have htpos : (0 : ℝ) < p.congestion.target_load := lt_of_lt_of_le (by norm_num) htl
    have hmax : max p.congestion.target_load 1e-9 = p.congestion.target_load :=
      max_eq_left htl
    rw [hmax]
    have hexp : 1 < Real.exp (p.congestion.eta * (cl / p.congestion.target_load - 1)) := by
      apply Real.one_lt_exp_iff.mpr
      have : 1 < cl / p.congestion.target_load := (one_lt_div htpos).mpr hload
      exact mul_pos heta (by linarith)
    have hb : cb < cb * Real.exp (p.congestion.eta * (cl / p.congestion.target_load - 1)) := by
      nlinarith
    unfold clamp
    exact lt_min (lt_of_lt_of_le hb (le_max_left _ _)) hcbmax
  · intro heta htl hcb hcbmin hload
    have htpos : (0 : ℝ) < p.congestion.target_load := lt_of_lt_of_le (by norm_num) htl
    have hmax : max p.congestion.target_load 1e-9 = p.congestion.target_load :=
      max_eq_left htl
    rw [hmax]
    have hexp : Real.exp (p.congestion.eta * (cl / p.congestion.target_load - 1)) < 1 := by
      apply Real.exp_lt_one_iff.mpr
      have : cl / p.congestion.target_load < 1 := (div_lt_one htpos).mpr hload
      exact mul_neg_of_pos_of_neg heta (by linarith)
    have hb : cb * Real.exp (p.congestion.eta * (cl / p.congestion.target_load - 1)) < cb := by
      nlinarith [Real.exp_pos (p.congestion.eta * (cl / p.congestion.target_load - 1))]
    unfold clamp
    exact lt_of_le_of_lt (min_le_left _ _) (max_lt hb hcbmin)

/-- Witness for the amended C3 theorem: default parameters, base 1,
loads 1000 (above target) and 100 (below target). -/
theorem update_base_cost_bounds_witness :
    Params.default.congestion.base_min ≤ Params.default.congestion.base_max ∧
    (Params.default.congestion.base_min ≤ update_base_cost 1 1000 Params.default ∧
      update_base_cost 1 1000 Params.default ≤ Params.default.congestion.base_max) ∧
    (0 < Params.default.congestion.eta ∧ 1e-9 ≤ Params.default.congestion.target_load ∧
      (0 : ℝ) < 1 ∧ (1 : ℝ) < Params.default.congestion.base_max ∧
      Params.default.congestion.target_load < 1000) ∧
    (1 : ℝ) < update_base_cost 1 1000 Params.default ∧
    update_base_cost 1 100 Params.default < 1 :=
  ⟨by norm_num [Params.default],
   (update_base_cost_bounds_and_strict 1 1000 Params.default).1 (by norm_num [Params.default]),
   ⟨by norm_num [Params.default], by norm_num [Params.default], by norm_num,
    by norm_num [Params.default], by norm_num [Params.default]⟩,
   (update_base_cost_bounds_and_strict 1 1000 Params.default).2.1
     (by norm_num [Params.default]) (by norm_num [Params.default]) (by norm_num)
     (by norm_num [Params.default]) (by norm_num [Params.default]),
   (update_base_cost_bounds_and_strict 1 100 Params.default).2.2
     (by norm_num [Params.default]) (by norm_num [Params.default]) (by norm_num)
     (by norm_num [Params.default]) (by norm_num [Params.default])⟩

lemma round_mono_real {x y : ℝ} (h : x ≤ y) : round x ≤ round y := by
  rw [round_eq, round_eq]
  exact Int.floor_mono (by linarith)

lemma u32ofReal_mono {x y : ℝ} (h : x ≤ y) : u32ofReal x ≤ u32ofReal y :=
  min_le_min (Int.toNat_le_toNat (round_mono_real h)) (le_refl _)

lemma u32ofReal_natCast {n : ℕ} (h : n ≤ 2 ^ 32 - 1) : u32ofReal ((n : ℝ)) = n := by
  unfold u32ofReal
  rw [round_natCast, Int.toNat_natCast]
  exact min_eq_left h

lemma one_le_u32ofReal {x : ℝ} (h : 1 ≤ x) : 1 ≤ u32ofReal x := by
  refine le_min ?_ (by norm_num)
  have h2 : (1 : ℤ) ≤ round x := by
    have h3 := round_mono_real h
    rwa [round_one] at h3
  exact le_trans (le_refl 1) (Int.toNat_le_toNat h2)

lemma u32ofReal_le_natCast {x : ℝ} {n : ℕ} (h : x ≤ (n : ℝ)) : u32ofReal x ≤ n := by
  refine le_trans (min_le_left _ _) ?_
  have h2 : round x ≤ ((n : ℕ) : ℤ) := by
    have h3 := round_mono_real h
    rwa [round_natCast] at h3
  calc (round x).toNat ≤ (((n : ℕ) : ℤ)).toNat := Int.toNat_le_toNat h2
  _ = n := Int.toNat_natCast n

lemma adjust_propagation_ttl (s : Option RiskSignals) (p : Params) :
    (adjust_propagation s p).ttl =
      u32ofReal (clamp (p.propagation.ttl_base -
        p.propagation.k1 * calculate_risk s RiskWeights.default) 1
        p.propagation.ttl_base) := rfl

lemma adjust_propagation_fanout (s : Option RiskSignals) (p : Params) :
    (adjust_propagation s p).fanout =
      u32ofReal (clamp (p.propagation.fanout_base -
        p.propagation.k2 * calculate_risk s RiskWeights.default) 1
        p.propagation.fanout_base) := rfl

lemma risk_none_eq_zero : calculate_risk none RiskWeights.default = 0 := by
  unfold calculate_risk v RiskSignals.default RiskWeights.default clamp
  norm_num [max_def, min_def]

/-- C5 counterexample: with `ttl_base = 0.2` the TTL output is 0, violating
`1 ≤ ttl`; with the non-integer `ttl_base = 4.6` and `k1 = 0` the rounded
TTL is 5, violating `ttl ≤ ttl_base`. -/
theorem adjust_propagation_counterexample :
    (adjust_propagation none c5p1).ttl = 0 ∧
    ((adjust_propagation none c5p2).ttl = 5 ∧
      ¬ ((5 : ℝ) ≤ c5p2.propagation.ttl_base)) := by
  have hr02 : round (0.2 : ℝ) = 0 := by
    rw [round_eq]
    apply Int.floor_eq_iff.mpr
    constructor <;> norm_num
  have hr46 : round (4.6 : ℝ) = 5 := by
    rw [round_eq]
    apply Int.floor_eq_iff.mpr
    constructor <;> norm_num
  refine ⟨?_, ?_, by norm_num [c5p2]⟩
  · rw [adjust_propagation_ttl, risk_none_eq_zero]
    have hc : clamp (c5p1.propagation.ttl_base - c5p1.propagation.k1 * 0) 1
        c5p1.propagation.ttl_base = 0.2 := by
      norm_num [c5p1, clamp, max_def, min_def]
    rw [hc]
    unfold u32ofReal
    rw [hr02]
    norm_num
  · rw [adjust_propagation_ttl, risk_none_eq_zero]
    have hc : clamp (c5p2.propagation.ttl_base - c5p2.propagation.k1 * 0) 1
        c5p2.propagation.ttl_base = 4.6 := by
      norm_num [c5p2, clamp, max_def, min_def]
    rw [hc]
    unfold u32ofReal
    rw [hr46]
    norm_num
    rfl

/-- C5 (amended): when the propagation bases are natural numbers at least 1
(as in every shipped configuration) and the sensitivity coefficients are
non-negative, the integral outputs satisfy `1 ≤ ttl ≤ ttl_base` and
`1 ≤ fanout ≤ fanout_base`; a larger risk score non-strictly decreases both
outputs; and zero risk yields the unmodified base values (for bases within
the `u32` range). -/
theorem adjust_propagation_amended (p : Params) (nt nf : ℕ)
    (ht : p.propagation.ttl_base = (nt : ℝ)) (hf : p.propagation.fanout_base = (nf : ℝ))
    (ht1 : 1 ≤ nt) (hf1 : 1 ≤ nf)
    (hk1 : 0 ≤ p.propagation.k1) (hk2 : 0 ≤ p.propagation.k2) :
    (∀ s, (1 ≤ (adjust_propagation s p).ttl ∧ (adjust_propagation s p).ttl ≤ nt) ∧
          (1 ≤ (adjust_propagation s p).fanout ∧ (adjust_propagation s p).fanout ≤ nf)) ∧
    (∀ s1 s2,
      calculate_risk s1 RiskWeights.default ≤ calculate_risk s2 RiskWeights.default →
      (adjust_propagation s2 p).ttl ≤ (adjust_propagation s1 p).ttl ∧
      (adjust_propagation s2 p).fanout ≤ (adjust_propagation s1 p).fanout) ∧
    (nt ≤ 2 ^ 32 - 1 → nf ≤ 2 ^ 32 - 1 →
      ∀ s, calculate_risk s RiskWeights.default = 0 →
        (adjust_propagation s p).ttl = nt ∧ (adjust_propagation s p).fanout = nf) := by
  have htR : (1 : ℝ) ≤ p.propagation.ttl_base := by
    rw [ht]; exact_mod_cast ht1
  have hfR : (1 : ℝ) ≤ p.propagation.fanout_base := by
    rw [hf]; exact_mod_cast hf1
  refine ⟨fun s => ?_, fun s1 s2 hr => ?_, fun hnt hnf s hz => ?_⟩
  · rw [adjust_propagation_ttl, adjust_propagation_fanout]
    refine ⟨⟨one_le_u32ofReal (lo_le_clamp _ htR), u32ofReal_le_natCast ?_⟩,
      ⟨one_le_u32ofReal (lo_le_clamp _ hfR), u32ofReal_le_natCast ?_⟩⟩
    · rw [← ht]; exact clamp_le_hi _ _ _
    · rw [← hf]; exact clamp_le_hi _ _ _
  · rw [adjust_propagation_ttl, adjust_propagation_ttl,
      adjust_propagation_fanout, adjust_propagation_fanout]
    constructor
    · exact u32ofReal_mono (clamp_mono_left _ _
        (sub_le_sub_left (mul_le_mul_of_nonneg_left hr hk1) _))
    · exact u32ofReal_mono (clamp_mono_left _ _
        (sub_le_sub_left (mul_le_mul_of_nonneg_left hr hk2) _))
  · rw [adjust_propagation_ttl, adjust_propagation_fanout, hz]
    constructor
    · have hc : clamp (p.propagation.ttl_base - p.propagation.k1 * 0) 1
          p.propagation.ttl_base = (nt : ℝ) := by
        rw [mul_zero, sub_zero]
        unfold clamp
        rw [max_eq_left htR, min_self, ht]
      rw [hc]
      exact u32ofReal_natCast hnt
    · have hc : clamp (p.propagation.fanout_base - p.propagation.k2 * 0) 1
          p.propagation.fanout_base = (nf : ℝ) := by
        rw [mul_zero, sub_zero]
        unfold clamp
        rw [max_eq_left hfR, min_self, hf]
      rw [hc]
      exact u32ofReal_natCast hnf

/-- Witness for the amended C5 theorem at the default parameters
(`ttl_base = 4`, `fanout_base = 5`) and the empty signal set. -/
theorem adjust_propagation_amended_witness :
    Params.default.propagation.ttl_base = ((4 : ℕ) : ℝ) ∧
    Params.default.propagation.fanout_base = ((5 : ℕ) : ℝ) ∧
    0 ≤ Params.default.propagation.k1 ∧ 0 ≤ Params.default.propagation.k2 ∧
    ((1 ≤ (adjust_propagation none Params.default).ttl ∧
      (adjust_propagation none Params.default).ttl ≤ 4) ∧
     (1 ≤ (adjust_propagation none Params.default).fanout ∧
      (adjust_propagation none Params.default).fanout ≤ 5)) :=
  ⟨by norm_num [Params.default], by norm_num [Params.default],
   by norm_num [Params.default], by norm_num [Params.default],
   (adjust_propagation_amended Params.default 4 5 (by norm_num [Params.default])
      (by norm_num [Params.default]) (by norm_num) (by norm_num)
      (by norm_num [Params.default]) (by norm_num [Params.default])).1 none⟩

lemma c7_post_cost : calculate_post_cost c7Actor c7Content Params.default 1 = 1 := by
  rw [post_cost_factorization]
  unfold stageOneCost riskFactor claimFactor rateFactor c7Actor c7Content
  norm_num [risk_none_eq_zero, Params.default, Real.zero_rpow]

/-- C7 counterexample: a policy whose T3 discount multiplier (2) exceeds its
T0 multiplier (1) yields a larger final cost under T3 than under T0. -/
theorem tier_ordering_counterexample :
    ¬ (compute_final_cost_with_tier c7Actor c7Content Params.default 1 Tier.T3 c7Policy
          c7Oracle 1 ≤
       compute_final_cost_with_tier c7Actor c7Content Params.default 1 Tier.T0 c7Policy
          c7Oracle 1) := by
  unfold compute_final_cost_with_tier usd_to_social tier_discount c7Policy c7Oracle
  rw [c7_post_cost]
  norm_num [max_def, min_def]

/-- C7 (amended): for fixed actor, content, parameters, base fare, policy,
oracle and fallback peg, the T3 final cost is at most the T0 final cost
provided the T3 discount multiplier is at most the T0 multiplier and the
USD minimum-cost floor is non-negative. -/
theorem tier_ordering_of_ordered_discounts (actor : Actor) (content : Content)
    (params : Params) (basefare : ℝ) (policy : TierPolicy) (oracle : PriceOracle)
    (fallback : ℝ) (hd : policy.discounts.2.2.2 ≤ policy.discounts.1)
    (hc : 0 ≤ policy.cmin_usd) :
    compute_final_cost_with_tier actor content params basefare Tier.T3 policy oracle
        fallback ≤
    compute_final_cost_with_tier actor content params basefare Tier.T0 policy oracle
        fallback := by
  unfold compute_final_cost_with_tier tier_discount
  dsimp only
  have hmin : 0 ≤ usd_to_social policy.cmin_usd oracle fallback := by
    unfold usd_to_social
    apply div_nonneg hc
    exact le_trans (by norm_num) (le_max_right _ _)
  apply mul_le_mul_of_nonneg_left hd
  split_ifs with hlt
  · exact hmin
  · exact le_trans hmin (not_lt.mp hlt)

/-- Witness for the amended C7 theorem with the sample tier policy. -/
theorem tier_ordering_witness :
    c7wPolicy.discounts.2.2.2 ≤ c7wPolicy.discounts.1 ∧ 0 ≤ c7wPolicy.cmin_usd ∧
    compute_final_cost_with_tier c7Actor c7Content Params.default 1 Tier.T3 c7wPolicy
        c7Oracle 1 ≤
    compute_final_cost_with_tier c7Actor c7Content Params.default 1 Tier.T0 c7wPolicy
        c7Oracle 1 :=
  ⟨by norm_num [c7wPolicy], by norm_num [c7wPolicy],
   tier_ordering_of_ordered_discounts c7Actor c7Content Params.default 1 c7wPolicy
     c7Oracle 1 (by norm_num [c7wPolicy]) (by norm_num [c7wPolicy])⟩

lemma calculate_ef_eq (l : List ℝ) (p : Params) :
    calculate_ef l p = Real.log (1 + (l.map (efTerm p)).sum) * p.ef.cap := rfl

lemma efTerm_nonneg (p : Params) (hq : 0 ≤ p.q_min) (q : ℝ) : 0 ≤ efTerm p q := by
  unfold efTerm
  split_ifs with hmem
  · exact Real.rpow_nonneg (le_trans hq hmem) _
  · exact le_refl 0

lemma efTerm_mono (p : Params) (hq : 0 ≤ p.q_min) (hg : 0 ≤ p.ef.gamma)
    {q1 q2 : ℝ} (h0 : 0 ≤ q1) (h12 : q1 ≤ q2) : efTerm p q1 ≤ efTerm p q2 := by
  unfold efTerm
  split_ifs with h1 h2
  · exact Real.rpow_le_rpow h0 h12 hg
  · exact absurd (le_trans h1 h12) h2
  · exact Real.rpow_nonneg (le_trans hq (by assumption)) _
  · exact le_refl 0

lemma ef_sum_nonneg (p : Params) (hq : 0 ≤ p.q_min) (l : List ℝ) :
    0 ≤ (l.map (efTerm p)).sum :=
  List.sum_nonneg (fun x hx => by
    obtain ⟨q, hqmem, hxq⟩ := List.mem_map.mp hx
    rw [← hxq]
    exact efTerm_nonneg p hq q)

lemma ef_sum_set_mono (p : Params) (hq : 0 ≤ p.q_min) (hg : 0 ≤ p.ef.gamma)
    (l : List ℝ) (i : ℕ) {q1 q2 : ℝ} (h0 : 0 ≤ q1) (h12 : q1 ≤ q2) :
    ((l.set i q1).map (efTerm p)).sum ≤ ((l.set i q2).map (efTerm p)).sum := by
  induction l generalizing i with
  | nil => simp
  | cons a tl ih =>
      cases i with
      | zero =>
          simp only [List.set_cons_zero, List.map_cons, List.sum_cons]
          exact add_le_add (efTerm_mono p hq hg h0 h12) (le_refl _)
      | succ n =>
          simp only [List.set_cons_succ, List.map_cons, List.sum_cons]
          exact add_le_add (le_refl _) (ih n)

/-- C8: with non-negative `q_min`, `gamma` and `cap`, the effective-followers
score of a collection of non-negative quality scores is non-negative, and
raising any single entry's quality (including across the `q_min` threshold)
never decreases the output. -/
theorem calculate_ef_nonneg_monotone (p : Params)
    (hq : 0 ≤ p.q_min) (hg : 0 ≤ p.ef.gamma) (hc : 0 ≤ p.ef.cap) :
    (∀ l : List ℝ, (∀ q ∈ l, 0 ≤ q) → 0 ≤ calculate_ef l p) ∧
    (∀ (l : List ℝ) (i : ℕ) (q1 q2 : ℝ), 0 ≤ q1 → q1 ≤ q2 →
      calculate_ef (l.set i q1) p ≤ calculate_ef (l.set i q2) p) := by
  constructor
  · intro l hl
    rw [calculate_ef_eq]
    apply mul_nonneg _ hc
    apply Real.log_nonneg
    linarith [ef_sum_nonneg p hq l]
  · intro l i q1 q2 h0 h12
    rw [calculate_ef_eq, calculate_ef_eq]
    apply mul_le_mul_of_nonneg_right _ hc
    apply Real.log_le_log (by linarith [ef_sum_nonneg p hq (l.set i q1)])
    linarith [ef_sum_set_mono p hq hg l i h0 h12]

/-- Witness for C8 at the default parameters and concrete follower lists. -/
theorem calculate_ef_witness :
    0 ≤ Params.default.q_min ∧ 0 ≤ Params.default.ef.gamma ∧ 0 ≤ Params.default.ef.cap ∧
    0 ≤ calculate_ef [0.8, 0.7, 0.4, 0.9] Params.default ∧
    calculate_ef ([0.8, 0.7].set 0 0.3) Params.default ≤
      calculate_ef ([0.8, 0.7].set 0 0.9) Params.default :=
  ⟨by norm_num [Params.default], by norm_num [Params.default],
   by norm_num [Params.default],
   (calculate_ef_nonneg_monotone Params.default (by norm_num [Params.default])
      (by norm_num [Params.default]) (by norm_num [Params.default])).1
      [0.8, 0.7, 0.4, 0.9]
      (by intro q hq; fin_cases hq <;> norm_num),
   (calculate_ef_nonneg_monotone Params.default (by norm_num [Params.default])
      (by norm_num [Params.default]) (by norm_num [Params.default])).2
      [0.8, 0.7] 0 0.3 0.9 (by norm_num) (by norm_num)⟩

/-- C10: for every non-negative USD amount, every oracle report (available or
not, any sign) and every fallback peg, `usd_to_social` is non-negative and
bounded by `usd · 1e9` — the divisor is floored at `1e-9` after the fallback
substitution, so the conversion can never be negative or blow up. -/
theorem usd_to_social_nonneg_bounded (usd : ℝ) (oracle : PriceOracle) (fallback : ℝ)
    (h : 0 ≤ usd) :
    0 ≤ usd_to_social usd oracle fallback ∧
    usd_to_social usd oracle fallback ≤ usd * 1e9 := by
  unfold usd_to_social
  dsimp only
  have hpx : (1e-9 : ℝ) ≤ max (oracle.usd_per_social.getD fallback) 1e-9 :=
    le_max_right _ _
  have hpos : (0 : ℝ) < max (oracle.usd_per_social.getD fallback) 1e-9 :=
    lt_of_lt_of_le (by norm_num) hpx
  refine ⟨div_nonneg h (le_of_lt hpos), ?_⟩
  rw [div_le_iff₀ hpos]
  nlinarith [mul_le_mul_of_nonneg_left hpx
    (mul_nonneg h (by norm_num : (0 : ℝ) ≤ 1e9))]

/-- Witness for C10 at the spec scenario: oracle reports 0.2 USD per unit. -/
theorem usd_to_social_witness :
    (0 : ℝ) ≤ 0.005 ∧
    (0 ≤ usd_to_social 0.005 ⟨some 0.2⟩ 0.2 ∧
     usd_to_social 0.005 ⟨some 0.2⟩ 0.2 ≤ 0.005 * 1e9) :=
  ⟨by norm_num, usd_to_social_nonneg_bounded 0.005 ⟨some 0.2⟩ 0.2 (by norm_num)⟩

end
